import Mathlib

/-!
Shallow embedding of `src/quacc/utils/kpts.py`: the k-point policy resolver
`convert_pmg_kpts` and the spacing converter `kspacing_to_grid`.

The external collaborators (pymatgen's `Kpoints.automatic_density*` scheme
generators, the `HighSymmKpath` path generator, and the ASE-to-pymatgen
structure adapter) are modelled as an abstract `SchemeLib` record of functions;
the resolver's own control flow (line-mode dispatch on the truthiness of
`pmg_kpts.get("line_density")`, the per-key density loop with its `>=`
running-best comparison, the unsupported-scheme error, the final dereference of
the running best) is embedded faithfully from the source.

For `kspacing_to_grid`, the reciprocal-cell norms computed by
`np.linalg.norm(atoms.cell.reciprocal(), axis=1)` enter the model as a field
`recipNorm` of the atoms object, related to the reciprocal cell by the
predicate `IsEuclideanNorm` (nonnegative square root of the row's sum of
squares); the rest of the function (ceil, max-1 clamp, non-periodic override
loop) is embedded directly.
-/

namespace KptsSpec

/-- A policy value: either a scalar (e.g. `kppa`, `line_density`) or a list
(e.g. `length_densities`), with Python truthiness. -/
inductive KVal where
  | num (q : ℚ)
  | vec (l : List ℚ)
deriving DecidableEq, Repr

/-- Python truthiness of a policy value: a scalar is truthy iff nonzero, a
list iff nonempty. -/
def KVal.truthy : KVal → Bool
  | .num q => q != 0
  | .vec l => !l.isEmpty

/-- The pymatgen structure, as far as this module inspects it: only the
per-site `magmom` property is read directly (`struct.site_properties.get("magmom", None)`). -/
structure Structure where
  magmoms : Option (List ℚ)
deriving DecidableEq

/-- `np.any(struct.site_properties.get("magmom", None))`: `np.any(None)` is
false, otherwise any nonzero entry. -/
def anyMagmom (s : Structure) : Bool :=
  match s.magmoms with
  | none => false
  | some l => l.any (fun q => q != 0)

/-- A pymatgen `Kpoints` object, as far as the resolver inspects it:
`kpts[0]` (the grid triple) and `style.name`. -/
structure Kpoints where
  kpts0 : ℤ × ℤ × ℤ
  styleName : String
deriving DecidableEq, Repr

/-- `np.prod(kp.kpts[0])`: total k-point count of a candidate grid. -/
def kptsProd (kp : Kpoints) : ℤ :=
  kp.kpts0.1 * kp.kpts0.2.1 * kp.kpts0.2.2

/-- `[int(k) for k in kp.kpts[0]]`. -/
def toIntList (g : ℤ × ℤ × ℤ) : List ℤ :=
  [g.1, g.2.1, g.2.2]

/-- A reciprocal-space point, as returned by `HighSymmKpath.get_kpoints`. -/
abbrev Vec3 := ℚ × ℚ × ℚ

/-- The external collaborators of `convert_pmg_kpts`, abstracted: the
structure adapter and the four pymatgen generators. `high_symm_kpath_kpoints`
takes the structure, the `path_type` string, the `has_magmoms` flag, the
`line_density` value and the `coords_are_cartesian` flag. -/
structure SchemeLib (A : Type) where
  get_structure : A → Structure
  automatic_density_by_vol : Structure → KVal → Bool → Kpoints
  automatic_density : Structure → KVal → Bool → Kpoints
  automatic_density_by_lengths : Structure → KVal → Bool → Kpoints
  high_symm_kpath_kpoints : Structure → String → Bool → KVal → Bool → List Vec3

/-- A k-point policy: an insertion-ordered mapping from scheme name to value
(a Python dict, iterated in insertion order). -/
abbrev Policy := List (String × KVal)

/-- Python `dict.get`: the value at the (first, and in a dict only) matching
key, else `none`. -/
def dictGet (policy : Policy) (key : String) : Option KVal :=
  match policy with
  | [] => none
  | (k, v) :: rest => if k == key then some v else dictGet rest key

/-- The boolean the line-mode branch tests: `if pmg_kpts.get("line_density"):`. -/
def lineDensityTruthy (policy : Policy) : Bool :=
  match dictGet policy "line_density" with
  | some v => v.truthy
  | none => false

/-- The recognized density-mode keys. -/
def recognizedDensityKey (k : String) : Bool :=
  k == "kppvol" || k == "kppa" || k == "length_densities"

/-- One iteration of the density loop's `if/elif/elif/else` chain: the
candidate `Kpoints` for one key, or `none` on the `raise ValueError` branch. -/
def evalScheme {A : Type} (lib : SchemeLib A) (struct : Structure) (k : String)
    (v : KVal) (force_gamma : Bool) : Option Kpoints :=
  if k == "kppvol" then some (lib.automatic_density_by_vol struct v force_gamma)
  else if k == "kppa" then some (lib.automatic_density struct v force_gamma)
  else if k == "length_densities" then
    some (lib.automatic_density_by_lengths struct v force_gamma)
  else none

/-- The running-best update:
`pmg_kpts if (not max_pmg_kpts or np.prod(pmg_kpts.kpts[0]) >= np.prod(max_pmg_kpts.kpts[0])) else max_pmg_kpts`. -/
def foldBestStep (best : Option Kpoints) (kp : Kpoints) : Kpoints :=
  match best with
  | none => kp
  | some b => if kptsProd b ≤ kptsProd kp then kp else b

/-- The errors the resolver can surface: the `raise ValueError` for an
unrecognized key, and the `AttributeError` from dereferencing
`max_pmg_kpts.kpts` while it is still `None` (empty policy). -/
inductive KptsError where
  | unsupportedScheme
  | noneBest
deriving DecidableEq, Repr

/-- The density-mode `for k, v in pmg_kpts.items():` loop, threading the
running best `max_pmg_kpts` (initially `None`). -/
def densityLoop {A : Type} (lib : SchemeLib A) (struct : Structure)
    (force_gamma : Bool) : Policy → Option Kpoints → Except KptsError (Option Kpoints)
  | [], best => .ok best
  | (k, v) :: rest, best =>
    match evalScheme lib struct k v force_gamma with
    | none => .error .unsupportedScheme
    | some kp => densityLoop lib struct force_gamma rest (some (foldBestStep best kp))

/-- The result of `convert_pmg_kpts`: either line mode (a sequence of
3-vectors, gamma false) or density mode (a 3-integer grid and a gamma flag). -/
inductive PmgKptsResult where
  | line (kpts : List Vec3) (gamma : Bool)
  | grid (kpts : List ℤ) (gamma : Bool)
deriving DecidableEq, Repr

/-- `max_pmg_kpts.style.name.lower() == "gamma"`. -/
def gammaOf (kp : Kpoints) : Bool :=
  kp.styleName.toLower == "gamma"

/-- The density-mode tail of `convert_pmg_kpts`: run the loop, then
dereference the running best (`kpts = [int(k) for k in max_pmg_kpts.kpts[0]]`,
`gamma = max_pmg_kpts.style.name.lower() == "gamma"`), which fails if the
best is still `None`. -/
def densityMode {A : Type} (lib : SchemeLib A) (struct : Structure)
    (policy : Policy) (force_gamma : Bool) : Except KptsError PmgKptsResult :=
  match densityLoop lib struct force_gamma policy none with
  | .error e => .error e
  | .ok none => .error .noneBest
  | .ok (some kp) => .ok (.grid (toIntList kp.kpts0) (gammaOf kp))

/-- `convert_pmg_kpts(pmg_kpts, input_atoms, force_gamma)`. -/
def convert_pmg_kpts {A : Type} (lib : SchemeLib A) (policy : Policy)
    (input_atoms : A) (force_gamma : Bool) : Except KptsError PmgKptsResult :=
  let struct := lib.get_structure input_atoms
  match dictGet policy "line_density" with
  | some v =>
    if v.truthy then
      .ok (.line
        (lib.high_symm_kpath_kpoints struct "latimer_munro" (anyMagmom struct) v true)
        false)
    else densityMode lib struct policy force_gamma
  | none => densityMode lib struct policy force_gamma

/-- The list of candidate grids computed by the density loop, in iteration
order (defined for any policy; on an all-recognized policy it has one entry
per key). -/
def candidates {A : Type} (lib : SchemeLib A) (struct : Structure)
    (force_gamma : Bool) (policy : Policy) : List Kpoints :=
  policy.filterMap (fun kv => evalScheme lib struct kv.1 kv.2 force_gamma)

/-- The pure selection the loop performs on the candidate list. -/
def selGo (best : Option Kpoints) (l : List Kpoints) : Option Kpoints :=
  l.foldl (fun b c => some (foldBestStep b c)) best

/-! ## `kspacing_to_grid` -/

/-- The ASE atoms object, as far as `kspacing_to_grid` inspects it: the
reciprocal cell (`atoms.cell.reciprocal()`, three row vectors), the row norms
delivered by `np.linalg.norm(..., axis=1)`, and the periodicity flags
`atoms.pbc`. -/
structure AtomsModel where
  recipCell : Fin 3 → Fin 3 → ℚ
  recipNorm : Fin 3 → ℚ
  pbc : Fin 3 → Bool

/-- `n` is the vector of Euclidean norms of the rows of `cell`: nonnegative,
with square equal to the row's sum of squares. -/
def IsEuclideanNorm (cell : Fin 3 → Fin 3 → ℚ) (n : Fin 3 → ℚ) : Prop :=
  ∀ i : Fin 3, 0 ≤ n i ∧
    n i * n i = cell i 0 * cell i 0 + cell i 1 * cell i 1 + cell i 2 * cell i 2

instance (cell : Fin 3 → Fin 3 → ℚ) (n : Fin 3 → ℚ) :
    Decidable (IsEuclideanNorm cell n) := by
  unfold IsEuclideanNorm; infer_instance

/-- `kspacing_to_grid(atoms, spacing)`: per-axis `max(1, ceil(norm/spacing))`,
then the override loop `for i, pbc in enumerate(atoms.pbc): if not pbc: kpoint_grid[i] = 1`. -/
def kspacing_to_grid (atoms : AtomsModel) (spacing : ℚ) : List ℤ :=
  let n := atoms.recipNorm
  let kpoint_grid : List ℤ :=
    [max 1 ⌈n 0 / spacing⌉, max 1 ⌈n 1 / spacing⌉, max 1 ⌈n 2 / spacing⌉]
  (List.finRange 3).foldl
    (fun g i => if atoms.pbc i then g else g.set i.1 1) kpoint_grid

/-! ## Concrete fixtures used by the witness theorems -/

/-- A concrete instantiation of the external collaborators, with fixed
generator outputs, used to exercise the resolver on closed inputs. -/
def wLib : SchemeLib Unit where
  get_structure := fun _ => ⟨none⟩
  automatic_density_by_vol := fun _ _ _ => ⟨(4, 4, 4), "Gamma"⟩
  automatic_density := fun _ _ _ => ⟨(3, 3, 3), "Monkhorst"⟩
  automatic_density_by_lengths := fun _ _ _ => ⟨(5, 5, 1), "Gamma"⟩
  high_symm_kpath_kpoints := fun _ _ _ _ _ => [((0 : ℚ), (0 : ℚ), (0 : ℚ)), ((1 : ℚ)/2, 0, 0)]

/-- A concrete rational 3-vector (kernel-reducible, unlike matrix notation). -/
def q3 (a b c : ℚ) : Fin 3 → ℚ
  | ⟨0, _⟩ => a
  | ⟨1, _⟩ => b
  | ⟨2, _⟩ => c

/-- A concrete boolean 3-vector. -/
def b3 (x y z : Bool) : Fin 3 → Bool
  | ⟨0, _⟩ => x
  | ⟨1, _⟩ => y
  | ⟨2, _⟩ => z

/-- A concrete 3×3 matrix from its rows. -/
def m3 (r0 r1 r2 : Fin 3 → ℚ) : Fin 3 → Fin 3 → ℚ
  | ⟨0, _⟩ => r0
  | ⟨1, _⟩ => r1
  | ⟨2, _⟩ => r2

/-- Concrete atoms: reciprocal basis norms `[2, 2, 4]`, axis 2 non-periodic. -/
def wAtoms : AtomsModel :=
  ⟨m3 (q3 2 0 0) (q3 0 2 0) (q3 0 0 4), q3 2 2 4, b3 true true false⟩

/-- Concrete atoms: reciprocal basis norms `[2, 2, 4]`, all axes periodic. -/
def wAtomsP : AtomsModel :=
  ⟨m3 (q3 2 0 0) (q3 0 2 0) (q3 0 0 4), q3 2 2 4, b3 true true true⟩

/-! ## Helper lemmas about the density loop -/

/-- The `if/elif/elif/else` chain produces a candidate exactly for the three
recognized keys. -/
lemma evalScheme_isSome {A : Type} (lib : SchemeLib A) (struct : Structure)
    (k : String) (v : KVal) (fg : Bool) :
    (evalScheme lib struct k v fg).isSome = recognizedDensityKey k := by
  unfold evalScheme recognizedDensityKey
  by_cases h1 : k == "kppvol" <;> by_cases h2 : k == "kppa" <;>
    by_cases h3 : k == "length_densities" <;> simp [h1, h2, h3]

/-- A recognized density key is never `"line_density"`. -/
lemma recognized_ne_line {k : String} (h : recognizedDensityKey k = true) :
    (k == "line_density") = false := by
  unfold recognizedDensityKey at h
  rcases Bool.or_eq_true_iff.mp h with h' | h3
  · rcases Bool.or_eq_true_iff.mp h' with h1 | h2
    · rw [beq_iff_eq] at h1; subst h1; rfl
    · rw [beq_iff_eq] at h2; subst h2; rfl
  · rw [beq_iff_eq] at h3; subst h3; rfl

/-- In a policy whose keys are all recognized, `"line_density"` is absent. -/
lemma dictGet_line_none_of_recognized (policy : Policy)
    (h : ∀ kv ∈ policy, recognizedDensityKey kv.1 = true) :
    dictGet policy "line_density" = none := by
  induction policy with
  | nil => rfl
  | cons kv rest ih =>
    obtain ⟨k, v⟩ := kv
    have hk : recognizedDensityKey k = true := h (k, v) (List.mem_cons_self _ _)
    simp only [dictGet, recognized_ne_line hk, Bool.false_eq_true, if_false]
    exact ih (fun kv hkv => h kv (List.mem_cons_of_mem _ hkv))

/-- When the line-mode test is false, the resolver runs density mode. -/
lemma convert_density_dispatch {A : Type} (lib : SchemeLib A) (policy : Policy)
    (atoms : A) (fg : Bool) (h : lineDensityTruthy policy = false) :
    convert_pmg_kpts lib policy atoms fg =
      densityMode lib (lib.get_structure atoms) policy fg := by
  unfold convert_pmg_kpts
  unfold lineDensityTruthy at h
  cases hd : dictGet policy "line_density" with
  | none => rfl
  | some v =>
    rw [hd] at h
    simp only [] at h
    simp [h]

/-- A successful value found by `dict.get` is an entry of the mapping. -/
lemma dictGet_mem {policy : Policy} {key : String} {v : KVal}
    (h : dictGet policy key = some v) : (key, v) ∈ policy := by
  induction policy with
  | nil => simp [dictGet] at h
  | cons kv rest ih =>
    obtain ⟨k, w⟩ := kv
    by_cases hk : k == key
    · rw [beq_iff_eq] at hk
      subst hk
      simp only [dictGet, beq_self_eq_true, if_true, Option.some.injEq] at h
      subst h
      exact List.mem_cons_self _ _
    · simp only [dictGet, hk, Bool.false_eq_true, if_false] at h
      exact List.mem_cons_of_mem _ (ih h)

/-- An unrecognized key anywhere in the list makes the loop raise, whatever
the accumulator. -/
lemma densityLoop_unrecognized {A : Type} (lib : SchemeLib A) (struct : Structure)
    (fg : Bool) (policy : Policy) (k : String) (v : KVal)
    (hmem : (k, v) ∈ policy) (hk : recognizedDensityKey k = false) :
    ∀ best, densityLoop lib struct fg policy best = .error .unsupportedScheme := by
  induction policy with
  | nil => cases hmem
  | cons kv rest ih =>
    intro best
    obtain ⟨k', v'⟩ := kv
    rcases List.mem_cons.mp hmem with heq | htail
    · obtain ⟨hk', hv'⟩ := Prod.mk.injEq .. ▸ heq
      subst hk'
      have : (evalScheme lib struct k v' fg).isSome = false := by
        rw [evalScheme_isSome, hk]
      cases he : evalScheme lib struct k v' fg with
      | none => simp [densityLoop, he]
      | some kp => rw [he] at this; simp at this
    · cases he : evalScheme lib struct k' v' fg with
      | none => simp [densityLoop, he]
      | some kp => simp [densityLoop, he, ih htail]

/-- The only error the loop itself raises is the unsupported-scheme one. -/
lemma densityLoop_error_eq {A : Type} {lib : SchemeLib A} {struct : Structure}
    {fg : Bool} {policy : Policy} {best : Option Kpoints} {e : KptsError}
    (h : densityLoop lib struct fg policy best = .error e) :
    e = .unsupportedScheme := by
  induction policy generalizing best with
  | nil => simp [densityLoop] at h
  | cons kv rest ih =>
    obtain ⟨k, v⟩ := kv
    cases he : evalScheme lib struct k v fg with
    | none =>
      rw [densityLoop, he] at h
      exact (Except.error.injEq .. ▸ h).symm
    | some kp =>
      rw [densityLoop, he] at h
      exact ih h

/-- Once the accumulator is set, a completed loop ends with it set. -/
lemma densityLoop_some_acc {A : Type} {lib : SchemeLib A} {struct : Structure}
    {fg : Bool} {policy : Policy} {b : Kpoints} {o : Option Kpoints}
    (h : densityLoop lib struct fg policy (some b) = .ok o) : o.isSome = true := by
  induction policy generalizing b with
  | nil =>
    simp only [densityLoop, Except.ok.injEq] at h
    subst h; rfl
  | cons kv rest ih =>
    obtain ⟨k, v⟩ := kv
    cases he : evalScheme lib struct k v fg with
    | none => rw [densityLoop, he] at h; cases h
    | some kp =>
      rw [densityLoop, he] at h
      exact ih h

/-- A completed loop over a nonempty list ends with the best set. -/
lemma densityLoop_ok_some {A : Type} {lib : SchemeLib A} {struct : Structure}
    {fg : Bool} {kv : String × KVal} {rest : Policy} {o : Option Kpoints}
    (h : densityLoop lib struct fg (kv :: rest) none = .ok o) : o.isSome = true := by
  obtain ⟨k, v⟩ := kv
  cases he : evalScheme lib struct k v fg with
  | none => rw [densityLoop, he] at h; cases h
  | some kp =>
    rw [densityLoop, he] at h
    exact densityLoop_some_acc h

/-- On an all-recognized policy, the loop completes and computes exactly the
fold of the running-best update over the candidate list. -/
lemma densityLoop_all_recognized {A : Type} (lib : SchemeLib A) (struct : Structure)
    (fg : Bool) (policy : Policy)
    (h : ∀ kv ∈ policy, recognizedDensityKey kv.1 = true) :
    ∀ best, densityLoop lib struct fg policy best =
      .ok (selGo best (candidates lib struct fg policy)) := by
  induction policy with
  | nil => intro best; rfl
  | cons kv rest ih =>
    intro best
    obtain ⟨k, v⟩ := kv
    have hk : recognizedDensityKey k = true := h (k, v) (List.mem_cons_self _ _)
    have hsome : (evalScheme lib struct k v fg).isSome = true := by
      rw [evalScheme_isSome]; exact hk
    cases he : evalScheme lib struct k v fg with
    | none => rw [he] at hsome; cases hsome
    | some kp =>
      simp only [densityLoop, he]
      rw [ih (fun kv hkv => h kv (List.mem_cons_of_mem _ hkv))]
      simp [candidates, selGo, he]

/-- Length of the candidate list of an all-recognized policy. -/
lemma candidates_length {A : Type} (lib : SchemeLib A) (struct : Structure)
    (fg : Bool) (policy : Policy)
    (h : ∀ kv ∈ policy, recognizedDensityKey kv.1 = true) :
    (candidates lib struct fg policy).length = policy.length := by
  induction policy with
  | nil => rfl
  | cons kv rest ih =>
    obtain ⟨k, v⟩ := kv
    have hk : recognizedDensityKey k = true := h (k, v) (List.mem_cons_self _ _)
    have hsome : (evalScheme lib struct k v fg).isSome = true := by
      rw [evalScheme_isSome]; exact hk
    cases he : evalScheme lib struct k v fg with
    | none => rw [he] at hsome; cases hsome
    | some kp =>
      have hrest := ih (fun kv hkv => h kv (List.mem_cons_of_mem _ hkv))
      simp only [candidates, List.filterMap_cons, he, List.length_cons] at hrest ⊢
      rw [hrest]

lemma selGo_cons (b : Option Kpoints) (c : Kpoints) (l : List Kpoints) :
    selGo b (c :: l) = selGo (some (foldBestStep b c)) l := rfl

lemma foldBestStep_some (b c : Kpoints) :
    foldBestStep (some b) c = if kptsProd b ≤ kptsProd c then c else b := rfl

/-- Characterization of the running-best fold started from a set accumulator:
the result dominates the accumulator and every list element, and is either
the accumulator (with every element strictly below it) or the element at an
index after which every element is strictly smaller -- the last-wins argmax. -/
lemma selGo_spec (l : List Kpoints) (b : Kpoints) :
    ∃ r, selGo (some b) l = some r ∧
      kptsProd b ≤ kptsProd r ∧
      (∀ c ∈ l, kptsProd c ≤ kptsProd r) ∧
      ((r = b ∧ ∀ c ∈ l, kptsProd c < kptsProd b) ∨
       (∃ i : ℕ, l[i]? = some r ∧
        ∀ (j : ℕ) (x : Kpoints), i < j → l[j]? = some x → kptsProd x < kptsProd r)) := by
  induction l generalizing b with
  | nil =>
    exact ⟨b, rfl, le_refl _, by simp, Or.inl ⟨rfl, by simp⟩⟩
  | cons c t ih =>
    by_cases hbc : kptsProd b ≤ kptsProd c
    · obtain ⟨r, hr, hbr, hall, hdisj⟩ := ih c
      have hsel : selGo (some b) (c :: t) = some r := by
        rw [selGo_cons, foldBestStep_some, if_pos hbc]; exact hr
      refine ⟨r, hsel, le_trans hbc hbr, ?_, ?_⟩
      · intro x hx
        rcases List.mem_cons.mp hx with hxc | hxt
        · subst hxc; exact hbr
        · exact hall x hxt
      · rcases hdisj with ⟨hrb, hstrict⟩ | ⟨i, hri, hafter⟩
        · refine Or.inr ⟨0, by simp [hrb], ?_⟩
          intro j x hj0 hjx
          cases j with
          | zero => omega
          | succ j' =>
            rw [List.getElem?_cons_succ] at hjx
            have hmem : x ∈ t := List.getElem?_mem hjx
            rw [hrb]
            exact hstrict x hmem
        · refine Or.inr ⟨i + 1, by simpa using hri, ?_⟩
          intro j x hij hjx
          cases j with
          | zero => omega
          | succ j' =>
            rw [List.getElem?_cons_succ] at hjx
            exact hafter j' x (by omega) hjx
    · have hcb : kptsProd c < kptsProd b := lt_of_not_le hbc
      obtain ⟨r, hr, hbr, hall, hdisj⟩ := ih b
      have hsel : selGo (some b) (c :: t) = some r := by
        rw [selGo_cons, foldBestStep_some, if_neg hbc]; exact hr
      refine ⟨r, hsel, hbr, ?_, ?_⟩
      · intro x hx
        rcases List.mem_cons.mp hx with hxc | hxt
        · subst hxc; exact le_trans (le_of_lt hcb) hbr
        · exact hall x hxt
      · rcases hdisj with ⟨hrb, hstrict⟩ | ⟨i, hri, hafter⟩
        · refine Or.inl ⟨hrb, ?_⟩
          intro x hx
          rcases List.mem_cons.mp hx with hxc | hxt
          · subst hxc; exact hcb
          · exact hstrict x hxt
        · refine Or.inr ⟨i + 1, by simpa using hri, ?_⟩
          intro j x hij hjx
          cases j with
          | zero => omega
          | succ j' =>
            rw [List.getElem?_cons_succ] at hjx
            exact hafter j' x (by omega) hjx

/-- The loop's selection over a nonempty candidate list, started (as in the
source) from `None`: the result is the candidate at an index whose count
dominates every candidate, every later candidate being strictly smaller. -/
lemma selGo_none_spec (c : Kpoints) (t : List Kpoints) :
    ∃ (i : ℕ) (r : Kpoints), (c :: t)[i]? = some r ∧
      selGo none (c :: t) = some r ∧
      (∀ x ∈ c :: t, kptsProd x ≤ kptsProd r) ∧
      ∀ (j : ℕ) (x : Kpoints), i < j → (c :: t)[j]? = some x → kptsProd x < kptsProd r := by
  have h0 : selGo none (c :: t) = selGo (some c) t := rfl
  obtain ⟨r, hr, hbr, hall, hdisj⟩ := selGo_spec t c
  rcases hdisj with ⟨hrb, hstrict⟩ | ⟨i, hri, hafter⟩
  · refine ⟨0, r, by simp [hrb], by rw [h0, hr], ?_, ?_⟩
    · intro x hx
      rcases List.mem_cons.mp hx with hxc | hxt
      · subst hxc; rw [hrb]
      · exact hall x hxt
    · intro j x hj0 hjx
      cases j with
      | zero => omega
      | succ j' =>
        rw [List.getElem?_cons_succ] at hjx
        have hmem : x ∈ t := List.getElem?_mem hjx
        rw [hrb]
        exact hstrict x hmem
  · refine ⟨i + 1, r, by simpa using hri, by rw [h0, hr], ?_, ?_⟩
    · intro x hx
      rcases List.mem_cons.mp hx with hxc | hxt
      · subst hxc; exact hbr
      · exact hall x hxt
    · intro j x hij hjx
      cases j with
      | zero => omega
      | succ j' =>
        rw [List.getElem?_cons_succ] at hjx
        exact hafter j' x (by omega) hjx

/-! ## Helper lemmas about `kspacing_to_grid` -/

/-- Closed form of `kspacing_to_grid`: the override loop leaves periodic axes
at the computed clamp and forces non-periodic axes to 1, in axis order. -/
lemma kspacing_to_grid_explicit (atoms : AtomsModel) (spacing : ℚ) :
    kspacing_to_grid atoms spacing =
      [if atoms.pbc 0 then max 1 ⌈atoms.recipNorm 0 / spacing⌉ else 1,
       if atoms.pbc 1 then max 1 ⌈atoms.recipNorm 1 / spacing⌉ else 1,
       if atoms.pbc 2 then max 1 ⌈atoms.recipNorm 2 / spacing⌉ else 1] := by
  have hfin : List.finRange 3 = [0, 1, 2] := by decide
  unfold kspacing_to_grid
  rw [hfin]
  cases h0 : atoms.pbc 0 <;> cases h1 : atoms.pbc 1 <;> cases h2 : atoms.pbc 2 <;>
    simp [h0, h1, h2, List.foldl, List.set]

/-- The Euclidean norm of a fixed cell is unique: any two nonnegative vectors
with the same squares agree. -/
lemma IsEuclideanNorm.unique {cell : Fin 3 → Fin 3 → ℚ} {n m : Fin 3 → ℚ}
    (hn : IsEuclideanNorm cell n) (hm : IsEuclideanNorm cell m) :
    ∀ i : Fin 3, n i = m i := by
  intro i
  obtain ⟨hn0, hnsq⟩ := hn i
  obtain ⟨hm0, hmsq⟩ := hm i
  have hsq : n i * n i = m i * m i := by rw [hnsq, hmsq]
  nlinarith [mul_self_nonneg (n i - m i), mul_self_nonneg (n i + m i)]

/-! ## Claim theorems -/

/-- C3: in density mode (the line-mode test is false), a policy containing a
key that is not one of `kppvol`, `kppa`, `length_densities` makes
`convert_pmg_kpts` fail with the unsupported-scheme error, regardless of the
key's position among the other keys. -/
theorem claim_C3 {A : Type} (lib : SchemeLib A) (policy : Policy) (atoms : A)
    (fg : Bool) (k : String) (v : KVal)
    (hline : lineDensityTruthy policy = false)
    (hmem : (k, v) ∈ policy)
    (hk : recognizedDensityKey k = false) :
    convert_pmg_kpts lib policy atoms fg = .error .unsupportedScheme := by
  rw [convert_density_dispatch lib policy atoms fg hline]
  unfold densityMode
  rw [densityLoop_unrecognized lib (lib.get_structure atoms) fg policy k v hmem hk none]

/-- C3 witness: the policy `{"kppa": 1000, "foo": 1}` is rejected. -/
theorem claim_C3_witness :
    lineDensityTruthy [("kppa", KVal.num 1000), ("foo", KVal.num 1)] = false ∧
    ("foo", KVal.num 1) ∈ ([("kppa", KVal.num 1000), ("foo", KVal.num 1)] : Policy) ∧
    recognizedDensityKey "foo" = false ∧
    convert_pmg_kpts wLib [("kppa", KVal.num 1000), ("foo", KVal.num 1)] () false =
      .error .unsupportedScheme :=
  ⟨by decide, by decide, by decide,
    claim_C3 wLib [("kppa", KVal.num 1000), ("foo", KVal.num 1)] () false
      "foo" (KVal.num 1) (by decide) (by decide) (by decide)⟩

/-- C9: a policy whose `line_density` key maps to a falsy value does not take
the line-mode branch; the call proceeds to density mode, where the
`line_density` key itself is unrecognized and triggers the unsupported-scheme
error. -/
theorem claim_C9 {A : Type} (lib : SchemeLib A) (policy : Policy) (atoms : A)
    (fg : Bool) (v : KVal)
    (hv : dictGet policy "line_density" = some v)
    (ht : v.truthy = false) :
    convert_pmg_kpts lib policy atoms fg = .error .unsupportedScheme := by
  have hline : lineDensityTruthy policy = false := by
    unfold lineDensityTruthy; rw [hv]; exact ht
  have hmem : ("line_density", v) ∈ policy := dictGet_mem hv
  have hk : recognizedDensityKey "line_density" = false := by decide
  rw [convert_density_dispatch lib policy atoms fg hline]
  unfold densityMode
  rw [densityLoop_unrecognized lib (lib.get_structure atoms) fg policy
    "line_density" v hmem hk none]

/-- C9 witness: the policy `{"line_density": 0}` errors instead of taking the
line branch. -/
theorem claim_C9_witness :
    dictGet [("line_density", KVal.num 0)] "line_density" = some (KVal.num 0) ∧
    (KVal.num 0).truthy = false ∧
    convert_pmg_kpts wLib [("line_density", KVal.num 0)] () false =
      .error .unsupportedScheme :=
  ⟨by decide, by decide,
    claim_C9 wLib [("line_density", KVal.num 0)] () false (KVal.num 0)
      (by decide) (by decide)⟩

/-- C4: for a policy with exactly one recognized density key and no other
key, the returned grid is that single scheme's generator output cast to three
integers, and the gamma flag is true iff the candidate's centering-style name
compared case-insensitively (lower-cased) equals "gamma". -/
theorem claim_C4 {A : Type} (lib : SchemeLib A) (k : String) (v : KVal)
    (atoms : A) (fg : Bool) (kp : Kpoints)
    (hkp : evalScheme lib (lib.get_structure atoms) k v fg = some kp) :
    ∃ gamma : Bool,
      convert_pmg_kpts lib [(k, v)] atoms fg =
        .ok (.grid (toIntList kp.kpts0) gamma) ∧
      (gamma = true ↔ kp.styleName.toLower = "gamma") := by
  have hsome : (evalScheme lib (lib.get_structure atoms) k v fg).isSome = true := by
    rw [hkp]; rfl
  have hrec : recognizedDensityKey k = true := by
    rw [← evalScheme_isSome lib (lib.get_structure atoms) k v fg]; exact hsome
  have hline : dictGet [(k, v)] "line_density" = none := by
    simp [dictGet, recognized_ne_line hrec]
  have hloop := densityLoop_all_recognized lib (lib.get_structure atoms) fg [(k, v)]
    (by
      intro kv hkv
      rw [List.mem_singleton] at hkv
      subst hkv
      exact hrec) none
  have hc : candidates lib (lib.get_structure atoms) fg [(k, v)] = [kp] := by
    simp [candidates, hkp]
  have hlt : lineDensityTruthy [(k, v)] = false := by
    unfold lineDensityTruthy; rw [hline]
  refine ⟨gammaOf kp, ?_, ?_⟩
  · rw [convert_density_dispatch lib [(k, v)] atoms fg hlt]
    unfold densityMode
    rw [hloop, hc]
    rfl
  · unfold gammaOf
    exact ⟨fun h => beq_iff_eq.mp h, fun h => beq_iff_eq.mpr h⟩

/-- C4 witness: the policy `{"kppa": 1000}` returns exactly the atom-density
generator's grid, with gamma false for the `"Monkhorst"` style. -/
theorem claim_C4_witness :
    evalScheme wLib (wLib.get_structure ()) "kppa" (KVal.num 1000) false =
      some ⟨(3, 3, 3), "Monkhorst"⟩ ∧
    (∃ gamma : Bool,
      convert_pmg_kpts wLib [("kppa", KVal.num 1000)] () false =
        .ok (.grid (toIntList (3, 3, 3)) gamma) ∧
      (gamma = true ↔ ("Monkhorst" : String).toLower = "gamma")) :=
  ⟨by decide,
    claim_C4 wLib "kppa" (KVal.num 1000) () false ⟨(3, 3, 3), "Monkhorst"⟩ (by decide)⟩

/-- C1: in density mode, for a policy of two or more recognized density keys,
the returned grid is that of one evaluated candidate whose total k-point count
is greater than or equal to (non-strict) every candidate's count, and that
candidate is the last one attaining the maximum in policy-iteration order:
every candidate evaluated after it has a strictly smaller count. -/
theorem claim_C1 {A : Type} (lib : SchemeLib A) (policy : Policy) (atoms : A)
    (fg : Bool)
    (hrec : ∀ kv ∈ policy, recognizedDensityKey kv.1 = true)
    (hlen : 2 ≤ policy.length) :
    ∃ (i : ℕ) (r : Kpoints),
      (candidates lib (lib.get_structure atoms) fg policy)[i]? = some r ∧
      convert_pmg_kpts lib policy atoms fg =
        .ok (.grid (toIntList r.kpts0) (gammaOf r)) ∧
      (∀ c ∈ candidates lib (lib.get_structure atoms) fg policy,
        kptsProd c ≤ kptsProd r) ∧
      (∀ (j : ℕ) (x : Kpoints), i < j →
        (candidates lib (lib.get_structure atoms) fg policy)[j]? = some x →
        kptsProd x < kptsProd r) := by
  have hline : dictGet policy "line_density" = none :=
    dictGet_line_none_of_recognized policy hrec
  have hlt : lineDensityTruthy policy = false := by
    unfold lineDensityTruthy; rw [hline]
  have hloop := densityLoop_all_recognized lib (lib.get_structure atoms) fg policy hrec none
  have hclen : (candidates lib (lib.get_structure atoms) fg policy).length = policy.length :=
    candidates_length lib (lib.get_structure atoms) fg policy hrec
  cases hc : candidates lib (lib.get_structure atoms) fg policy with
  | nil => rw [hc] at hclen; simp at hclen; omega
  | cons c t =>
    obtain ⟨i, r, hir, hsel, hall, hafter⟩ := selGo_none_spec c t
    refine ⟨i, r, hir, ?_, hall, hafter⟩
    rw [convert_density_dispatch lib policy atoms fg hlt]
    unfold densityMode
    rw [hloop, hc, hsel]

/-- C1 witness: `{"kppvol": 100, "kppa": 1000}` under the fixed generators,
where the kppvol candidate (64 points) beats the kppa candidate (27 points). -/
theorem claim_C1_witness :
    (∀ kv ∈ ([("kppvol", KVal.num 100), ("kppa", KVal.num 1000)] : Policy),
      recognizedDensityKey kv.1 = true) ∧
    2 ≤ ([("kppvol", KVal.num 100), ("kppa", KVal.num 1000)] : Policy).length ∧
    (∃ (i : ℕ) (r : Kpoints),
      (candidates wLib (wLib.get_structure ()) false
        [("kppvol", KVal.num 100), ("kppa", KVal.num 1000)])[i]? = some r ∧
      convert_pmg_kpts wLib [("kppvol", KVal.num 100), ("kppa", KVal.num 1000)] () false =
        .ok (.grid (toIntList r.kpts0) (gammaOf r)) ∧
      (∀ c ∈ candidates wLib (wLib.get_structure ()) false
          [("kppvol", KVal.num 100), ("kppa", KVal.num 1000)],
        kptsProd c ≤ kptsProd r) ∧
      (∀ (j : ℕ) (x : Kpoints), i < j →
        (candidates wLib (wLib.get_structure ()) false
          [("kppvol", KVal.num 100), ("kppa", KVal.num 1000)])[j]? = some x →
        kptsProd x < kptsProd r)) :=
  ⟨by decide, by decide,
    claim_C1 wLib [("kppvol", KVal.num 100), ("kppa", KVal.num 1000)] () false
      (by decide) (by decide)⟩

/-- C10: in density mode with at least one recognized key (and all keys
recognized), the returned triple is the grid of exactly one evaluated
candidate, and the gamma flag is computed from that same candidate's
centering style. -/
theorem claim_C10 {A : Type} (lib : SchemeLib A) (policy : Policy) (atoms : A)
    (fg : Bool)
    (hrec : ∀ kv ∈ policy, recognizedDensityKey kv.1 = true)
    (hne : policy ≠ []) :
    ∃ r ∈ candidates lib (lib.get_structure atoms) fg policy,
      convert_pmg_kpts lib policy atoms fg =
        .ok (.grid (toIntList r.kpts0) (gammaOf r)) := by
  have hline : dictGet policy "line_density" = none :=
    dictGet_line_none_of_recognized policy hrec
  have hlt : lineDensityTruthy policy = false := by
    unfold lineDensityTruthy; rw [hline]
  have hloop := densityLoop_all_recognized lib (lib.get_structure atoms) fg policy hrec none
  have hclen : (candidates lib (lib.get_structure atoms) fg policy).length = policy.length :=
    candidates_length lib (lib.get_structure atoms) fg policy hrec
  have hplen : policy.length ≠ 0 := fun h => hne (List.length_eq_zero.mp h)
  cases hc : candidates lib (lib.get_structure atoms) fg policy with
  | nil => rw [hc] at hclen; simp at hclen; omega
  | cons c t =>
    obtain ⟨i, r, hir, hsel, _, _⟩ := selGo_none_spec c t
    refine ⟨r, List.getElem?_mem hir, ?_⟩
    rw [convert_density_dispatch lib policy atoms fg hlt]
    unfold densityMode
    rw [hloop, hc, hsel]

/-- C10 witness: a three-key policy with a tie between the kppvol and
length-density candidates. -/
theorem claim_C10_witness :
    (∀ kv ∈ ([("kppa", KVal.num 500), ("kppvol", KVal.num 100),
        ("length_densities", KVal.vec [4, 4, 4])] : Policy),
      recognizedDensityKey kv.1 = true) ∧
    ([("kppa", KVal.num 500), ("kppvol", KVal.num 100),
        ("length_densities", KVal.vec [4, 4, 4])] : Policy) ≠ [] ∧
    (∃ r ∈ candidates wLib (wLib.get_structure ()) false
        [("kppa", KVal.num 500), ("kppvol", KVal.num 100),
         ("length_densities", KVal.vec [4, 4, 4])],
      convert_pmg_kpts wLib
        [("kppa", KVal.num 500), ("kppvol", KVal.num 100),
         ("length_densities", KVal.vec [4, 4, 4])] () false =
        .ok (.grid (toIntList r.kpts0) (gammaOf r))) :=
  ⟨by decide, by decide,
    claim_C10 wLib
      [("kppa", KVal.num 500), ("kppvol", KVal.num 100),
       ("length_densities", KVal.vec [4, 4, 4])] () false (by decide) (by decide)⟩

/-- C7: in density mode, with at least one recognized density key in the
policy, a completed density loop always ends with the running best set, and
the final dereference then succeeds with that candidate's grid; the
best-unset failure is never reached. For the empty policy, the loop performs
zero iterations, the best stays unset, and the dereference of the unset best
is reached and fails. -/
theorem claim_C7 {A : Type} (lib : SchemeLib A) (policy : Policy) (atoms : A)
    (fg : Bool) (k : String) (v : KVal)
    (hline : lineDensityTruthy policy = false)
    (hmem : (k, v) ∈ policy)
    (hk : recognizedDensityKey k = true) :
    (∀ o, densityLoop lib (lib.get_structure atoms) fg policy none = .ok o →
      o.isSome = true) ∧
    (∀ kp, densityLoop lib (lib.get_structure atoms) fg policy none = .ok (some kp) →
      convert_pmg_kpts lib policy atoms fg =
        .ok (.grid (toIntList kp.kpts0) (gammaOf kp))) ∧
    convert_pmg_kpts lib policy atoms fg ≠ .error .noneBest ∧
    densityLoop lib (lib.get_structure atoms) fg ([] : Policy) none = .ok none ∧
    convert_pmg_kpts lib ([] : Policy) atoms fg = .error .noneBest := by
  have hfirst : ∀ o, densityLoop lib (lib.get_structure atoms) fg policy none = .ok o →
      o.isSome = true := by
    intro o ho
    cases policy with
    | nil => cases hmem
    | cons kv rest => exact densityLoop_ok_some ho
  refine ⟨hfirst, ?_, ?_, rfl, rfl⟩
  · intro kp hkp
    rw [convert_density_dispatch lib policy atoms fg hline]
    unfold densityMode
    rw [hkp]
  · rw [convert_density_dispatch lib policy atoms fg hline]
    unfold densityMode
    cases hl : densityLoop lib (lib.get_structure atoms) fg policy none with
    | error e =>
      have : e = .unsupportedScheme := densityLoop_error_eq hl
      subst this
      simp
    | ok o =>
      have : o.isSome = true := hfirst o hl
      cases o with
      | none => cases this
      | some kp => simp

/-- C7 witness: `{"kppa": 1000}` completes with the best set, and the empty
policy reaches the unset-best failure. -/
theorem claim_C7_witness :
    lineDensityTruthy [("kppa", KVal.num 1000)] = false ∧
    ("kppa", KVal.num 1000) ∈ ([("kppa", KVal.num 1000)] : Policy) ∧
    recognizedDensityKey "kppa" = true ∧
    ((∀ o, densityLoop wLib (wLib.get_structure ()) false
        [("kppa", KVal.num 1000)] none = .ok o → o.isSome = true) ∧
     (∀ kp, densityLoop wLib (wLib.get_structure ()) false
        [("kppa", KVal.num 1000)] none = .ok (some kp) →
      convert_pmg_kpts wLib [("kppa", KVal.num 1000)] () false =
        .ok (.grid (toIntList kp.kpts0) (gammaOf kp))) ∧
     convert_pmg_kpts wLib [("kppa", KVal.num 1000)] () false ≠ .error .noneBest ∧
     densityLoop wLib (wLib.get_structure ()) false ([] : Policy) none = .ok none ∧
     convert_pmg_kpts wLib ([] : Policy) () false = .error .noneBest) :=
  ⟨by decide, by decide, by decide,
    claim_C7 wLib [("kppa", KVal.num 1000)] () false "kppa" (KVal.num 1000)
      (by decide) (by decide) (by decide)⟩

/-- C2 counterexample: a policy in which the key `line_density` is present
but maps to the falsy value 0 does not take the line-mode branch; the call
ends in the unsupported-scheme error, not in a line-mode k-point sequence. -/
theorem claim_C2_counterexample :
    (dictGet [("line_density", KVal.num 0)] "line_density").isSome = true ∧
    convert_pmg_kpts wLib [("line_density", KVal.num 0)] () false =
      .error .unsupportedScheme := by
  exact ⟨rfl, rfl⟩

/-- C2 (amended): for every policy in which `line_density` maps to a truthy
value, the resolver takes the line-mode branch: it returns the ordered
sequence of 3-vectors produced by the high-symmetry path generator (invoked
with the latimer-munro path type and cartesian coordinates) with a gamma flag
of false, and no density-based scheme generator is ever invoked — the result
is unchanged under any replacement of the three density generators. -/
theorem claim_C2 {A : Type} (lib : SchemeLib A) (policy : Policy) (atoms : A)
    (fg : Bool) (v : KVal)
    (hv : dictGet policy "line_density" = some v)
    (ht : v.truthy = true) :
    convert_pmg_kpts lib policy atoms fg =
      .ok (.line
        (lib.high_symm_kpath_kpoints (lib.get_structure atoms) "latimer_munro"
          (anyMagmom (lib.get_structure atoms)) v true)
        false) ∧
    ∀ lib' : SchemeLib A,
      lib'.get_structure = lib.get_structure →
      lib'.high_symm_kpath_kpoints = lib.high_symm_kpath_kpoints →
      convert_pmg_kpts lib' policy atoms fg = convert_pmg_kpts lib policy atoms fg := by
  have hrun : ∀ lb : SchemeLib A, convert_pmg_kpts lb policy atoms fg =
      .ok (.line
        (lb.high_symm_kpath_kpoints (lb.get_structure atoms) "latimer_munro"
          (anyMagmom (lb.get_structure atoms)) v true)
        false) := by
    intro lb
    unfold convert_pmg_kpts
    rw [hv]
    simp [ht]
  refine ⟨hrun lib, ?_⟩
  intro lib' hgs hpath
  rw [hrun lib, hrun lib', hgs, hpath]

/-- C2 witness: `{"line_density": 20, "kppa": 1000}` takes the line branch
and ignores the density generators. -/
theorem claim_C2_witness :
    dictGet [("line_density", KVal.num 20), ("kppa", KVal.num 1000)] "line_density" =
      some (KVal.num 20) ∧
    (KVal.num 20).truthy = true ∧
    (convert_pmg_kpts wLib [("line_density", KVal.num 20), ("kppa", KVal.num 1000)] () false =
      .ok (.line
        (wLib.high_symm_kpath_kpoints (wLib.get_structure ()) "latimer_munro"
          (anyMagmom (wLib.get_structure ())) (KVal.num 20) true)
        false) ∧
     ∀ lib' : SchemeLib Unit,
      lib'.get_structure = wLib.get_structure →
      lib'.high_symm_kpath_kpoints = wLib.high_symm_kpath_kpoints →
      convert_pmg_kpts lib' [("line_density", KVal.num 20), ("kppa", KVal.num 1000)] () false =
        convert_pmg_kpts wLib [("line_density", KVal.num 20), ("kppa", KVal.num 1000)] () false) :=
  ⟨by decide, by decide,
    claim_C2 wLib [("line_density", KVal.num 20), ("kppa", KVal.num 1000)] () false
      (KVal.num 20) (by decide) (by decide)⟩

/-- C5: for a positive spacing and a periodic axis `i`, the `i`-th grid entry
equals `max(1, ceil(norm / spacing))`, where `norm` is the Euclidean norm of
the `i`-th reciprocal basis vector (any nonnegative vector whose squares are
the rows' sums of squares). -/
theorem claim_C5 (atoms : AtomsModel) (spacing : ℚ) (i : Fin 3) (ν : Fin 3 → ℚ)
    (hsp : 0 < spacing)
    (hnorm : IsEuclideanNorm atoms.recipCell atoms.recipNorm)
    (hν : IsEuclideanNorm atoms.recipCell ν)
    (hp : atoms.pbc i = true) :
    (kspacing_to_grid atoms spacing).getD i.1 0 = max 1 ⌈ν i / spacing⌉ := by
  have hnv : atoms.recipNorm i = ν i := hnorm.unique hν i
  rw [kspacing_to_grid_explicit, ← hnv]
  fin_cases i <;> simp_all [List.getD]

/-- C5 witness: norms `[2, 2, 4]`, spacing `1/2`, axis 2 periodic → entry
`max(1, ceil(4 / (1/2))) = 8`. -/
theorem claim_C5_witness :
    (0 : ℚ) < 1/2 ∧
    IsEuclideanNorm wAtomsP.recipCell wAtomsP.recipNorm ∧
    IsEuclideanNorm wAtomsP.recipCell (q3 2 2 4) ∧
    wAtomsP.pbc 2 = true ∧
    (kspacing_to_grid wAtomsP (1/2)).getD (2 : Fin 3).1 0 =
      max 1 ⌈q3 2 2 4 2 / (1/2 : ℚ)⌉ :=
  ⟨by norm_num,
   by intro i; fin_cases i <;> norm_num [IsEuclideanNorm, wAtomsP, q3, m3],
   by intro i; fin_cases i <;> norm_num [IsEuclideanNorm, wAtomsP, q3, m3],
   by decide,
   claim_C5 wAtomsP (1/2) 2 (q3 2 2 4) (by norm_num)
     (by intro i; fin_cases i <;> norm_num [IsEuclideanNorm, wAtomsP, q3, m3])
     (by intro i; fin_cases i <;> norm_num [IsEuclideanNorm, wAtomsP, q3, m3])
     (by decide)⟩

/-- C6: a non-periodic axis's grid entry is exactly 1, overriding the
computed value; axis order is preserved, a periodic axis `i` keeping the
value computed from reciprocal basis vector `i`, and the grid has one entry
per axis. -/
theorem claim_C6 (atoms : AtomsModel) (spacing : ℚ) (i : Fin 3) :
    (atoms.pbc i = false → (kspacing_to_grid atoms spacing).getD i.1 0 = 1) ∧
    (atoms.pbc i = true → (kspacing_to_grid atoms spacing).getD i.1 0 =
      max 1 ⌈atoms.recipNorm i / spacing⌉) ∧
    (kspacing_to_grid atoms spacing).length = 3 := by
  rw [kspacing_to_grid_explicit]
  refine ⟨fun hp => ?_, fun hp => ?_, rfl⟩ <;> fin_cases i <;> simp_all [List.getD]

/-- C6 witness: norms `[2, 2, 4]`, spacing `1/2`, axis 2 non-periodic →
entry 1 despite a computed value of 8; axis 0 periodic keeps `4`. -/
theorem claim_C6_witness :
    (wAtoms.pbc 2 = false → (kspacing_to_grid wAtoms (1/2)).getD (2 : Fin 3).1 0 = 1) ∧
    (wAtoms.pbc 2 = true → (kspacing_to_grid wAtoms (1/2)).getD (2 : Fin 3).1 0 =
      max 1 ⌈wAtoms.recipNorm 2 / (1/2 : ℚ)⌉) ∧
    (kspacing_to_grid wAtoms (1/2)).length = 3 :=
  claim_C6 wAtoms (1/2) 2

/-- C8: for positive spacing, every entry of the returned grid is an integer
at least 1 (there are three of them), and a periodic axis whose reciprocal
basis vector has zero norm yields 1 via the clamp, never 0. -/
theorem claim_C8 (atoms : AtomsModel) (spacing : ℚ) (hsp : 0 < spacing) :
    (∀ x ∈ kspacing_to_grid atoms spacing, 1 ≤ x) ∧
    (kspacing_to_grid atoms spacing).length = 3 ∧
    (∀ i : Fin 3, atoms.recipNorm i = 0 → atoms.pbc i = true →
      (kspacing_to_grid atoms spacing).getD i.1 0 = 1) := by
  rw [kspacing_to_grid_explicit]
  refine ⟨?_, rfl, ?_⟩
  · intro x hx
    simp only [List.mem_cons, List.not_mem_nil, or_false] at hx
    rcases hx with h | h | h <;> subst h <;> split_ifs <;>
      simp [le_max_left]
  · intro i h0 hp
    fin_cases i <;> simp_all [List.getD]

/-- C8 witness: norms `[2, 2, 4]` with spacing `1/2`: all entries at least 1. -/
theorem claim_C8_witness :
    (0 : ℚ) < 1/2 ∧
    ((∀ x ∈ kspacing_to_grid wAtoms (1/2 : ℚ), 1 ≤ x) ∧
     (kspacing_to_grid wAtoms (1/2 : ℚ)).length = 3 ∧
     (∀ i : Fin 3, wAtoms.recipNorm i = 0 → wAtoms.pbc i = true →
      (kspacing_to_grid wAtoms (1/2 : ℚ)).getD i.1 0 = 1)) :=
  ⟨by norm_num, claim_C8 wAtoms (1/2) (by norm_num)⟩

end KptsSpec
